import Mathlib

/-!
Verification development for the interactive 3D scene of this repository
(src/src/App.js). The components under study are the camera rig controls,
the spring interpolation of the Box props, the GLTF asset loading of the
ShibaGLTF component, and the declarative scene graph assembled by App.
Values coming from external collaborators (orbit controls update rule,
spring easing, loader callback contract, effect re-run rule) are modelled
from the specification and marked as such; everything else is translated
from the source.
-/

namespace Workshop

/-! ## Camera rig (Controls component, src/src/App.js lines 155-178) -/

/-- Camera orientation in spherical terms: polar (elevation) and azimuthal
angle, the two angles the orbit controls steer. -/
structure CameraAngles (α : Type) where
  polar : α
  azimuth : α

/-- Configuration the Controls component passes to the orbitControls
element: autoRotate on, minPolarAngle and maxPolarAngle both set.
The per-frame auto-rotation increment is a fixed engine constant kept
abstract here. -/
structure ControlsConfig (α : Type) where
  autoRotate : Bool
  minPolarAngle : α
  maxPolarAngle : α
  autoRotateIncrement : α

/-- The exact props of the orbitControls element in the source:
autoRotate, minPolarAngle = pi/3, maxPolarAngle = pi/3, where piv stands
for the circle constant of the scalar type. -/
def controlsProps {α : Type} [LinearOrderedField α] (piv inc : α) : ControlsConfig α :=
  { autoRotate := true
    minPolarAngle := piv / 3
    maxPolarAngle := piv / 3
    autoRotateIncrement := inc }

/-- Per-frame input to one controls update: whether the pointer is
dragging, and the accumulated drag deltas for this frame. -/
structure ControlsInput (α : Type) where
  dragging : Bool
  dPolar : α
  dAzimuth : α

/-- Modelled from the spec: the polar angle is clamped to the interval
from minPolarAngle to maxPolarAngle after every update. -/
def clampPolar {α : Type} [LinearOrderedField α] (cfg : ControlsConfig α) (x : α) : α :=
  max cfg.minPolarAngle (min cfg.maxPolarAngle x)

/-- Modelled from the spec: one update of the orbit controls, as invoked
from useFrame. Drag deltas are applied and the polar angle is clamped;
while not dragging, autoRotate advances the azimuthal angle by the fixed
per-frame increment. -/
def controlsUpdate {α : Type} [LinearOrderedField α]
    (cfg : ControlsConfig α) (i : ControlsInput α) (s : CameraAngles α) : CameraAngles α :=
  { polar := clampPolar cfg (s.polar + i.dPolar)
    azimuth := s.azimuth + i.dAzimuth +
      (if cfg.autoRotate && !i.dragging then cfg.autoRotateIncrement else 0) }

/-- State of the camera after a sequence of per-frame updates. -/
def runControls {α : Type} [LinearOrderedField α]
    (cfg : ControlsConfig α) (s : CameraAngles α) (is : List (ControlsInput α)) :
    CameraAngles α :=
  is.foldl (fun st i => controlsUpdate cfg i st) s

/-- A frame in the AutoRotating state: no pointer drag. -/
def autoFrameInput {α : Type} [LinearOrderedField α] : ControlsInput α :=
  { dragging := false, dPolar := 0, dAzimuth := 0 }

theorem clampPolar_mem {α : Type} [LinearOrderedField α] (cfg : ControlsConfig α)
    (hmm : cfg.minPolarAngle ≤ cfg.maxPolarAngle) (x : α) :
    cfg.minPolarAngle ≤ clampPolar cfg x ∧ clampPolar cfg x ≤ cfg.maxPolarAngle := by
  constructor
  · exact le_max_left _ _
  · exact max_le hmm (min_le_left _ _)

theorem runControls_polar_mem {α : Type} [LinearOrderedField α] (cfg : ControlsConfig α)
    (hmm : cfg.minPolarAngle ≤ cfg.maxPolarAngle) :
    ∀ (is : List (ControlsInput α)) (s : CameraAngles α) (i : ControlsInput α),
      cfg.minPolarAngle ≤ (runControls cfg s (i :: is)).polar ∧
        (runControls cfg s (i :: is)).polar ≤ cfg.maxPolarAngle := by
  intro is
  induction is with
  | nil =>
      intro s i
      exact clampPolar_mem cfg hmm _
  | cons j js ih =>
      intro s i
      exact ih (controlsUpdate cfg i s) j

/-- C1: after every update the polar angle lies within the clamp interval,
for every sequence of drag inputs; with the props of the Controls
component (minPolarAngle = maxPolarAngle = pi/3) the polar angle is
exactly pi/3 after every update. -/
theorem C1_polar_always_clamped (cfg : ControlsConfig ℝ)
    (hmm : cfg.minPolarAngle ≤ cfg.maxPolarAngle)
    (inc : ℝ) (s : CameraAngles ℝ) (i : ControlsInput ℝ) (is : List (ControlsInput ℝ)) :
    (cfg.minPolarAngle ≤ (runControls cfg s (i :: is)).polar ∧
      (runControls cfg s (i :: is)).polar ≤ cfg.maxPolarAngle) ∧
    (runControls (controlsProps Real.pi inc) s (i :: is)).polar = Real.pi / 3 := by
  refine ⟨runControls_polar_mem cfg hmm is s i, ?_⟩
  have h := runControls_polar_mem (controlsProps Real.pi inc) (le_refl _) is s i
  exact le_antisymm h.2 h.1

/-- Witness for C1 at a concrete configuration, one huge drag delta. -/
theorem C1_polar_always_clamped_witness :
    ((controlsProps Real.pi 1).minPolarAngle ≤
        (runControls (controlsProps Real.pi 1) ⟨1, 0⟩
          [⟨true, 100, 0⟩]).polar ∧
      (runControls (controlsProps Real.pi 1) ⟨1, 0⟩
          [⟨true, 100, 0⟩]).polar ≤ (controlsProps Real.pi 1).maxPolarAngle) ∧
    (runControls (controlsProps Real.pi 1) ⟨1, 0⟩ [⟨true, 100, 0⟩]).polar = Real.pi / 3 :=
  C1_polar_always_clamped (controlsProps Real.pi 1) (le_refl _) 1 ⟨1, 0⟩ ⟨true, 100, 0⟩ []

/-- C6: in the AutoRotating state one controls update advances the
azimuthal angle by exactly the fixed increment, and two updates within
one logical frame advance it by exactly two increments. -/
theorem C6_tick_additive {α : Type} [LinearOrderedField α] (cfg : ControlsConfig α)
    (hauto : cfg.autoRotate = true) (s : CameraAngles α) :
    (controlsUpdate cfg autoFrameInput s).azimuth = s.azimuth + cfg.autoRotateIncrement ∧
    (controlsUpdate cfg autoFrameInput (controlsUpdate cfg autoFrameInput s)).azimuth
      = s.azimuth + 2 * cfg.autoRotateIncrement := by
  constructor
  · simp [controlsUpdate, autoFrameInput, hauto]
  · simp [controlsUpdate, autoFrameInput, hauto]
    ring

/-- Witness for C6 at a concrete rational configuration. -/
theorem C6_tick_additive_witness :
    (controlsUpdate (⟨true, 0, 1, 1⟩ : ControlsConfig ℚ) autoFrameInput ⟨0, 0⟩).azimuth
        = (0 : ℚ) + 1 ∧
    (controlsUpdate (⟨true, 0, 1, 1⟩ : ControlsConfig ℚ) autoFrameInput
        (controlsUpdate ⟨true, 0, 1, 1⟩ autoFrameInput ⟨0, 0⟩)).azimuth = (0 : ℚ) + 2 * 1 :=
  C6_tick_additive ⟨true, 0, 1, 1⟩ rfl ⟨0, 0⟩

/-! ## Spring interpolation (Box component, src/src/App.js lines 192-222) -/

/-- One animated scalar tracked by the interpolation engine: current value
and committed target. -/
structure AnimatedValue (α : Type) where
  current : α
  target : α

/-- Modelled from the spec: one eased interpolation step moves the current
value a fixed fraction k of the remaining distance toward the target. -/
def springTick {α : Type} [LinearOrderedField α] (k : α) (v : AnimatedValue α) :
    AnimatedValue α :=
  { current := v.current + k * (v.target - v.current), target := v.target }

/-- The animated value after n interpolation steps. -/
def springTicks {α : Type} [LinearOrderedField α] (k : α) : ℕ → AnimatedValue α → AnimatedValue α
  | 0, v => v
  | n + 1, v => springTicks k n (springTick k v)

theorem springTicks_target (k : ℚ) (n : ℕ) (v : AnimatedValue ℚ) :
    (springTicks k n v).target = v.target := by
  induction n generalizing v with
  | zero => rfl
  | succ m ih => exact ih (springTick k v)

theorem springTicks_sub (k : ℚ) (n : ℕ) (v : AnimatedValue ℚ) :
    (springTicks k n v).current - v.target = (1 - k) ^ n * (v.current - v.target) := by
  induction n generalizing v with
  | zero => simp [springTicks]
  | succ m ih =>
      have h := ih (springTick k v)
      have hstep : (springTick k v).current - (springTick k v).target
          = (1 - k) * (v.current - v.target) := by
        simp [springTick]
        ring
      calc (springTicks k (m + 1) v).current - v.target
          = (springTicks k m (springTick k v)).current - (springTick k v).target := rfl
        _ = (1 - k) ^ m * ((springTick k v).current - (springTick k v).target) := h
        _ = (1 - k) ^ m * ((1 - k) * (v.current - v.target)) := by rw [hstep]
        _ = (1 - k) ^ (m + 1) * (v.current - v.target) := by ring

theorem springTicks_abs (k : ℚ) (hk1 : k ≤ 1) (n : ℕ) (v : AnimatedValue ℚ) :
    |(springTicks k n v).current - v.target| = (1 - k) ^ n * |v.current - v.target| := by
  have hr : (0 : ℚ) ≤ 1 - k := by linarith
  rw [springTicks_sub, abs_mul, abs_of_nonneg (pow_nonneg hr n)]

theorem spring_eventually (k ε : ℚ) (hk0 : 0 < k) (hk1 : k ≤ 1) (hε : 0 < ε)
    (v : AnimatedValue ℚ) :
    ∃ N, ∀ n, N ≤ n → |(springTicks k n v).current - v.target| < ε := by
  have hr0 : (0 : ℚ) ≤ 1 - k := by linarith
  have hr1 : (1 : ℚ) - k < 1 := by linarith
  set d := |v.current - v.target| with hd
  have hd0 : 0 ≤ d := abs_nonneg _
  have hd1 : (0 : ℚ) < d + 1 := by linarith
  obtain ⟨N, hN⟩ := exists_pow_lt_of_lt_one (div_pos hε hd1) hr1
  refine ⟨N, fun n hn => ?_⟩
  have hpow : (1 - k) ^ n ≤ (1 - k) ^ N := pow_le_pow_of_le_one hr0 (by linarith) hn
  calc |(springTicks k n v).current - v.target|
      = (1 - k) ^ n * d := springTicks_abs k hk1 n v
    _ ≤ (1 - k) ^ N * d := mul_le_mul_of_nonneg_right hpow hd0
    _ ≤ (1 - k) ^ N * (d + 1) := by
        have := pow_nonneg hr0 N
        nlinarith
    _ < (ε / (d + 1)) * (d + 1) := by
        exact mul_lt_mul_of_pos_right hN hd1
    _ = ε := div_mul_cancel₀ ε (ne_of_gt hd1)

/-- C7: once a target is committed, the target is preserved by every tick,
the distance to the target never increases, the current value never
crosses the target (zero overshoot), the evolution is a deterministic
function of the committed state and the number of elapsed ticks, and the
current value eventually stays within any positive epsilon of the
target. -/
theorem C7_spring_monotone_convergence (k ε : ℚ) (hk0 : 0 < k) (hk1 : k ≤ 1) (hε : 0 < ε)
    (v : AnimatedValue ℚ) :
    (∀ n, (springTicks k n v).target = v.target) ∧
    (∀ n, |(springTicks k (n + 1) v).current - v.target|
        ≤ |(springTicks k n v).current - v.target|) ∧
    (∀ n, (v.current ≤ v.target → (springTicks k n v).current ≤ v.target) ∧
          (v.target ≤ v.current → v.target ≤ (springTicks k n v).current)) ∧
    (∀ n (w : AnimatedValue ℚ), w.current = v.current → w.target = v.target →
        (springTicks k n w).current = (springTicks k n v).current) ∧
    (∃ N, ∀ n, N ≤ n → |(springTicks k n v).current - v.target| < ε) := by
  have hr0 : (0 : ℚ) ≤ 1 - k := by linarith
  refine ⟨fun n => springTicks_target k n v, fun n => ?_, fun n => ⟨?_, ?_⟩, ?_, ?_⟩
  · rw [springTicks_abs k hk1, springTicks_abs k hk1]
    have hpow : (1 - k) ^ (n + 1) ≤ (1 - k) ^ n :=
      pow_le_pow_of_le_one hr0 (by linarith) (Nat.le_succ n)
    exact mul_le_mul_of_nonneg_right hpow (abs_nonneg _)
  · intro hcle
    have := springTicks_sub k n v
    have hnp : (1 - k) ^ n * (v.current - v.target) ≤ 0 :=
      mul_nonpos_of_nonneg_of_nonpos (pow_nonneg hr0 n) (by linarith)
    linarith [this, hnp]
  · intro htle
    have := springTicks_sub k n v
    have hnn : 0 ≤ (1 - k) ^ n * (v.current - v.target) :=
      mul_nonneg (pow_nonneg hr0 n) (by linarith)
    linarith [this, hnn]
  · intro n w hc ht
    have : w = v := by
      cases v
      cases w
      simp only at hc ht
      simp [hc, ht]
    rw [this]
  · exact spring_eventually k ε hk0 hk1 hε v

/-- Witness for C7 at k = 1/2, epsilon = 1, starting at 0 with target 1. -/
theorem C7_spring_monotone_convergence_witness :
    (∀ n, (springTicks (1/2 : ℚ) n ⟨0, 1⟩).target = (⟨0, 1⟩ : AnimatedValue ℚ).target) ∧
    (∀ n, |(springTicks (1/2 : ℚ) (n + 1) ⟨0, 1⟩).current - (⟨0, 1⟩ : AnimatedValue ℚ).target|
        ≤ |(springTicks (1/2 : ℚ) n ⟨0, 1⟩).current - (⟨0, 1⟩ : AnimatedValue ℚ).target|) ∧
    (∀ n, ((⟨0, 1⟩ : AnimatedValue ℚ).current ≤ (⟨0, 1⟩ : AnimatedValue ℚ).target →
            (springTicks (1/2 : ℚ) n ⟨0, 1⟩).current ≤ (⟨0, 1⟩ : AnimatedValue ℚ).target) ∧
          ((⟨0, 1⟩ : AnimatedValue ℚ).target ≤ (⟨0, 1⟩ : AnimatedValue ℚ).current →
            (⟨0, 1⟩ : AnimatedValue ℚ).target ≤ (springTicks (1/2 : ℚ) n ⟨0, 1⟩).current)) ∧
    (∀ n (w : AnimatedValue ℚ), w.current = (⟨0, 1⟩ : AnimatedValue ℚ).current →
        w.target = (⟨0, 1⟩ : AnimatedValue ℚ).target →
        (springTicks (1/2 : ℚ) n w).current = (springTicks (1/2 : ℚ) n ⟨0, 1⟩).current) ∧
    (∃ N, ∀ n, N ≤ n →
        |(springTicks (1/2 : ℚ) n ⟨0, 1⟩).current - (⟨0, 1⟩ : AnimatedValue ℚ).target| < 1) :=
  C7_spring_monotone_convergence (1/2) 1 one_half_pos one_half_lt_one.le one_pos ⟨0, 1⟩

/-! ## Box props (src/src/App.js lines 192-222) -/

/-- A 3-vector of scalars, as used for position, rotation and scale. -/
structure Vec3 (α : Type) where
  x : α
  y : α
  z : α
deriving DecidableEq

/-- The scale prop the Box component submits to useSpring:
active selects [1.5, 1.5, 1.5], otherwise [1, 1, 1]. -/
def boxScaleTarget (active : Bool) : Vec3 ℚ :=
  if active then ⟨3/2, 3/2, 3/2⟩ else ⟨1, 1, 1⟩

/-- The color prop the Box component submits to useSpring:
hover selects red, otherwise gray. -/
def boxColorTarget (hover : Bool) : String :=
  if hover then "red" else "gray"

/-- Modelled from the spec: the interpolation engine animates colors by
channels, resolving the CSS keywords the source uses to RGB triples. -/
def cssColor : String → Vec3 ℚ
  | "red" => ⟨255, 0, 0⟩
  | "gray" => ⟨128, 128, 128⟩
  | _ => ⟨0, 0, 0⟩

/-- Componentwise interpolation of a 3-vector toward a target after n
ticks at rate k. -/
def vec3SpringCurrent (k : ℚ) (n : ℕ) (cur tgt : Vec3 ℚ) : Vec3 ℚ :=
  ⟨(springTicks k n ⟨cur.x, tgt.x⟩).current,
   (springTicks k n ⟨cur.y, tgt.y⟩).current,
   (springTicks k n ⟨cur.z, tgt.z⟩).current⟩

/-- Componentwise distance between two 3-vectors. -/
def vecDist (a b : Vec3 ℚ) : ℚ :=
  max |a.x - b.x| (max |a.y - b.y| |a.z - b.z|)

theorem vec3Spring_eventually (k ε : ℚ) (hk0 : 0 < k) (hk1 : k ≤ 1) (hε : 0 < ε)
    (cur tgt : Vec3 ℚ) :
    ∃ N, ∀ n, N ≤ n → vecDist (vec3SpringCurrent k n cur tgt) tgt < ε := by
  obtain ⟨Nx, hNx⟩ := spring_eventually k ε hk0 hk1 hε ⟨cur.x, tgt.x⟩
  obtain ⟨Ny, hNy⟩ := spring_eventually k ε hk0 hk1 hε ⟨cur.y, tgt.y⟩
  obtain ⟨Nz, hNz⟩ := spring_eventually k ε hk0 hk1 hε ⟨cur.z, tgt.z⟩
  refine ⟨max Nx (max Ny Nz), fun n hn => ?_⟩
  have hx := hNx n (le_trans (le_max_left _ _) hn)
  have hy := hNy n (le_trans (le_trans (le_max_left _ _) (le_max_right _ _)) hn)
  have hz := hNz n (le_trans (le_trans (le_max_right _ _) (le_max_right _ _)) hn)
  exact max_lt hx (max_lt hy hz)

/-- C4: the Box targets are red and [1.5, 1.5, 1.5] when hover and active
hold, gray and [1, 1, 1] when they do not, and with hover and active held
the interpolated scale and color eventually stay within any positive
epsilon of those targets. -/
theorem C4_box_targets_convergence (k ε : ℚ) (hk0 : 0 < k) (hk1 : k ≤ 1) (hε : 0 < ε)
    (c0 s0 : Vec3 ℚ) :
    boxColorTarget true = "red" ∧ boxScaleTarget true = ⟨3/2, 3/2, 3/2⟩ ∧
    boxColorTarget false = "gray" ∧ boxScaleTarget false = ⟨1, 1, 1⟩ ∧
    (∃ N, ∀ n, N ≤ n →
      vecDist (vec3SpringCurrent k n s0 (boxScaleTarget true)) (boxScaleTarget true) < ε) ∧
    (∃ N, ∀ n, N ≤ n →
      vecDist (vec3SpringCurrent k n c0 (cssColor (boxColorTarget true)))
        (cssColor "red") < ε) := by
  refine ⟨rfl, rfl, rfl, rfl, ?_, ?_⟩
  · exact vec3Spring_eventually k ε hk0 hk1 hε s0 (boxScaleTarget true)
  · exact vec3Spring_eventually k ε hk0 hk1 hε c0 (cssColor (boxColorTarget true))

/-- Witness for C4 at k = 1/2, epsilon = 1, both values starting at the
origin. -/
theorem C4_box_targets_convergence_witness :
    boxColorTarget true = "red" ∧ boxScaleTarget true = ⟨3/2, 3/2, 3/2⟩ ∧
    boxColorTarget false = "gray" ∧ boxScaleTarget false = ⟨1, 1, 1⟩ ∧
    (∃ N, ∀ n, N ≤ n →
      vecDist (vec3SpringCurrent (1/2) n ⟨0, 0, 0⟩ (boxScaleTarget true))
        (boxScaleTarget true) < 1) ∧
    (∃ N, ∀ n, N ≤ n →
      vecDist (vec3SpringCurrent (1/2) n ⟨0, 0, 0⟩ (cssColor (boxColorTarget true)))
        (cssColor "red") < 1) :=
  C4_box_targets_convergence (1/2) 1 one_half_pos one_half_lt_one.le one_pos ⟨0, 0, 0⟩ ⟨0, 0, 0⟩

/-! ## Box interaction events (src/src/App.js lines 206-210) -/

/-- The pointer events the Box component handles: onPointerOver sets
hover, onPointerOut clears hover, onClick toggles active. -/
inductive BoxEvent where
  | pointerOver
  | pointerOut
  | click
deriving DecidableEq

/-- The component-local interaction state of one Box instance. -/
structure BoxState where
  hover : Bool
  active : Bool
deriving DecidableEq

/-- Both useState hooks start at false. -/
def initBoxState : BoxState := ⟨false, false⟩

/-- The event handlers of the Box mesh. -/
def stepEvent (s : BoxState) : BoxEvent → BoxState
  | .pointerOver => { s with hover := true }
  | .pointerOut => { s with hover := false }
  | .click => { s with active := !s.active }

/-- Whether an event is a pointer-over or pointer-out event. -/
def isPointerEvent : BoxEvent → Bool
  | .click => false
  | _ => true

/-- Whether an event is a click. -/
def isClickEvent : BoxEvent → Bool
  | .click => true
  | _ => false

/-- The state after one frame worth of delivered events. -/
def stepFrame (s : BoxState) (es : List BoxEvent) : BoxState :=
  es.foldl stepEvent s

/-- The interaction states at every frame boundary of a run, where a run
is the list of events delivered during each frame. -/
def statesTrace (fs : List (List BoxEvent)) : List BoxState :=
  List.scanl stepFrame initBoxState fs

/-- The color target submitted to useSpring at every frame of a run. -/
def colorTargetTrace (fs : List (List BoxEvent)) : List String :=
  (statesTrace fs).map fun s => boxColorTarget s.hover

/-- The scale target submitted to useSpring at every frame of a run. -/
def scaleTargetTrace (fs : List (List BoxEvent)) : List (Vec3 ℚ) :=
  (statesTrace fs).map fun s => boxScaleTarget s.active

/-- Action of one event on the hover flag alone. -/
def hoverStep (h : Bool) : BoxEvent → Bool
  | .pointerOver => true
  | .pointerOut => false
  | .click => h

/-- Action of one event on the active flag alone. -/
def activeStep (a : Bool) : BoxEvent → Bool
  | .click => !a
  | _ => a

theorem stepFrame_hover (es : List BoxEvent) : ∀ s : BoxState,
    (stepFrame s es).hover = es.foldl hoverStep s.hover := by
  induction es with
  | nil => intro s; rfl
  | cons e es ih =>
      intro s
      have h1 : (stepEvent s e).hover = hoverStep s.hover e := by
        cases e <;> rfl
      calc (stepFrame s (e :: es)).hover
          = (stepFrame (stepEvent s e) es).hover := rfl
        _ = es.foldl hoverStep (stepEvent s e).hover := ih (stepEvent s e)
        _ = es.foldl hoverStep (hoverStep s.hover e) := by rw [h1]

theorem stepFrame_active (es : List BoxEvent) : ∀ s : BoxState,
    (stepFrame s es).active = es.foldl activeStep s.active := by
  induction es with
  | nil => intro s; rfl
  | cons e es ih =>
      intro s
      have h1 : (stepEvent s e).active = activeStep s.active e := by
        cases e <;> rfl
      calc (stepFrame s (e :: es)).active
          = (stepFrame (stepEvent s e) es).active := rfl
        _ = es.foldl activeStep (stepEvent s e).active := ih (stepEvent s e)
        _ = es.foldl activeStep (activeStep s.active e) := by rw [h1]

theorem hoverFold_filter (es : List BoxEvent) : ∀ h : Bool,
    es.foldl hoverStep h = (es.filter isPointerEvent).foldl hoverStep h := by
  induction es with
  | nil => intro h; rfl
  | cons e es ih =>
      intro h
      cases e with
      | pointerOver => simpa [List.filter, isPointerEvent] using ih true
      | pointerOut => simpa [List.filter, isPointerEvent] using ih false
      | click => simpa [List.filter, isPointerEvent, hoverStep] using ih h

theorem activeFold_filter (es : List BoxEvent) : ∀ a : Bool,
    es.foldl activeStep a = (es.filter isClickEvent).foldl activeStep a := by
  induction es with
  | nil => intro a; rfl
  | cons e es ih =>
      intro a
      cases e with
      | pointerOver => simpa [List.filter, isClickEvent, activeStep] using ih a
      | pointerOut => simpa [List.filter, isClickEvent, activeStep] using ih a
      | click => simpa [List.filter, isClickEvent] using ih (!a)

theorem hoverTrace_of_filter : ∀ (fs1 fs2 : List (List BoxEvent)) (s1 s2 : BoxState),
    fs1.map (fun es => es.filter isPointerEvent) = fs2.map (fun es => es.filter isPointerEvent) →
    s1.hover = s2.hover →
    (List.scanl stepFrame s1 fs1).map (fun s => s.hover)
      = (List.scanl stepFrame s2 fs2).map (fun s => s.hover) := by
  intro fs1
  induction fs1 with
  | nil =>
      intro fs2 s1 s2 hmap hh
      cases fs2 with
      | nil => simpa [List.scanl] using hh
      | cons g gs => simp at hmap
  | cons f fs ih =>
      intro fs2 s1 s2 hmap hh
      cases fs2 with
      | nil => simp at hmap
      | cons g gs =>
          simp only [List.map_cons, List.cons.injEq] at hmap
          have hstep : (stepFrame s1 f).hover = (stepFrame s2 g).hover := by
            rw [stepFrame_hover, stepFrame_hover, hoverFold_filter f, hoverFold_filter g,
              hmap.1, hh]
          simp only [List.scanl, List.map_cons]
          exact congrArg₂ (fun a b => a :: b) hh (ih gs _ _ hmap.2 hstep)

theorem activeTrace_of_filter : ∀ (fs1 fs2 : List (List BoxEvent)) (s1 s2 : BoxState),
    fs1.map (fun es => es.filter isClickEvent) = fs2.map (fun es => es.filter isClickEvent) →
    s1.active = s2.active →
    (List.scanl stepFrame s1 fs1).map (fun s => s.active)
      = (List.scanl stepFrame s2 fs2).map (fun s => s.active) := by
  intro fs1
  induction fs1 with
  | nil =>
      intro fs2 s1 s2 hmap hh
      cases fs2 with
      | nil => simpa [List.scanl] using hh
      | cons g gs => simp at hmap
  | cons f fs ih =>
      intro fs2 s1 s2 hmap hh
      cases fs2 with
      | nil => simp at hmap
      | cons g gs =>
          simp only [List.map_cons, List.cons.injEq] at hmap
          have hstep : (stepFrame s1 f).active = (stepFrame s2 g).active := by
            rw [stepFrame_active, stepFrame_active, activeFold_filter f, activeFold_filter g,
              hmap.1, hh]
          simp only [List.scanl, List.map_cons]
          exact congrArg₂ (fun a b => a :: b) hh (ih gs _ _ hmap.2 hstep)

/-- C10: the per-frame color targets of a Box run depend only on the
pointer-over and pointer-out history, and the per-frame scale targets
depend only on the click history. -/
theorem C10_target_noninterference (fs1 fs2 : List (List BoxEvent)) :
    (fs1.map (fun es => es.filter isPointerEvent)
        = fs2.map (fun es => es.filter isPointerEvent) →
      colorTargetTrace fs1 = colorTargetTrace fs2) ∧
    (fs1.map (fun es => es.filter isClickEvent)
        = fs2.map (fun es => es.filter isClickEvent) →
      scaleTargetTrace fs1 = scaleTargetTrace fs2) := by
  constructor
  · intro hmap
    have h := hoverTrace_of_filter fs1 fs2 initBoxState initBoxState hmap rfl
    unfold colorTargetTrace statesTrace
    calc (List.scanl stepFrame initBoxState fs1).map (fun s => boxColorTarget s.hover)
        = ((List.scanl stepFrame initBoxState fs1).map (fun s => s.hover)).map
            boxColorTarget := by rw [List.map_map]; rfl
      _ = ((List.scanl stepFrame initBoxState fs2).map (fun s => s.hover)).map
            boxColorTarget := by rw [h]
      _ = (List.scanl stepFrame initBoxState fs2).map (fun s => boxColorTarget s.hover) := by
            rw [List.map_map]; rfl
  · intro hmap
    have h := activeTrace_of_filter fs1 fs2 initBoxState initBoxState hmap rfl
    unfold scaleTargetTrace statesTrace
    calc (List.scanl stepFrame initBoxState fs1).map (fun s => boxScaleTarget s.active)
        = ((List.scanl stepFrame initBoxState fs1).map (fun s => s.active)).map
            boxScaleTarget := by rw [List.map_map]; rfl
      _ = ((List.scanl stepFrame initBoxState fs2).map (fun s => s.active)).map
            boxScaleTarget := by rw [h]
      _ = (List.scanl stepFrame initBoxState fs2).map (fun s => boxScaleTarget s.active) := by
            rw [List.map_map]; rfl

/-- Witness for C10: two runs that differ by an extra click share their
color trace, and two runs that differ by an extra hover share their scale
trace. -/
theorem C10_target_noninterference_witness :
    colorTargetTrace [[BoxEvent.pointerOver, BoxEvent.click]]
        = colorTargetTrace [[BoxEvent.pointerOver]] ∧
    scaleTargetTrace [[BoxEvent.click, BoxEvent.pointerOver]]
        = scaleTargetTrace [[BoxEvent.click]] :=
  ⟨(C10_target_noninterference [[BoxEvent.pointerOver, BoxEvent.click]]
      [[BoxEvent.pointerOver]]).1 rfl,
   (C10_target_noninterference [[BoxEvent.click, BoxEvent.pointerOver]]
      [[BoxEvent.click]]).2 rfl⟩

/-! ## Asset loading (ShibaGLTF component, src/src/App.js lines 224-236) -/

/-- An externally produced scene fragment, kept opaque: the code never
inspects it, it only passes it through. -/
inductive Fragment where
  | node : List Fragment → Fragment

/-- The parsed result of a gltf load; the code reads only its scene
field. -/
structure GLTFModel where
  scene : Fragment

/-- Outcome of one asynchronous load request, as delivered by the
asset-fetch collaborator: a parsed model, or an error description. -/
inductive LoadOutcome where
  | success : GLTFModel → LoadOutcome
  | failure : String → LoadOutcome

/-- Whether an outcome is a success. -/
def isSuccessOutcome : LoadOutcome → Bool
  | .success _ => true
  | .failure _ => false

/-- Whether an outcome is a failure. -/
def isFailureOutcome : LoadOutcome → Bool
  | .success _ => false
  | .failure _ => true

/-- Effect of one delivered outcome on the model state of ShibaGLTF: the
component passes setModel as the load callback and passes no error
callback, so a failure outcome leaves the state unchanged. -/
def handleStep (s : Option GLTFModel) : LoadOutcome → Option GLTFModel
  | .success m => some m
  | .failure _ => s

/-- The model state after a sequence of delivered outcomes, starting from
the initial useState value (unresolved). -/
def handleRun (es : List LoadOutcome) : Option GLTFModel :=
  es.foldl handleStep none

/-! ## Scene graph (src/src/App.js lines 180-276) -/

/-- Geometry descriptor: shape kind and constructor arguments. -/
structure Geometry where
  kind : String
  args : List ℚ

/-- Material descriptor: material kind and color. -/
structure Material where
  kind : String
  color : String

/-- A node of the declarative scene tree, covering exactly the node set
of the observed scene. -/
inductive SceneNode (α : Type) where
  | mesh (geometry : Geometry) (material : Material)
      (rotation position scale : Vec3 α) (casts receives : Bool)
  | fogNode (color : String) (near far : α)
  | ambientLight (intensity : α)
  | spotLight (position : Vec3 α) (penumbra : α) (casts : Bool)
  | controlsNode (autoRotate : Bool) (minPolarAngle maxPolarAngle : α)
  | group (children : List (SceneNode α))
  | primitive (obj : Fragment)

/-- The shadow-casting flag a node declares; nodes with no such prop
default to false, as in the engine. -/
def castsOf {α : Type} : SceneNode α → Bool
  | .mesh _ _ _ _ _ c _ => c
  | .spotLight _ _ c => c
  | _ => false

/-- The shadow-receiving flag a node declares. -/
def receivesOf {α : Type} : SceneNode α → Bool
  | .mesh _ _ _ _ _ _ r => r
  | _ => false

/-- What the ShibaGLTF component renders from its model state: nothing
while unresolved, the resolved fragment as an opaque primitive once
resolved. -/
def shibaRender {α : Type} (s : Option GLTFModel) : Option (SceneNode α) :=
  match s with
  | some m => some (SceneNode.primitive m.scene)
  | none => none

/-- The mesh of the Plane component: a 100 by 100 plane at y = -0.5,
receiving shadows. The parameter piv stands for the circle constant. -/
def planeNode {α : Type} [LinearOrderedField α] (piv : α) : SceneNode α :=
  .mesh ⟨"planeBufferGeometry", [100, 100]⟩ ⟨"meshPhysicalMaterial", "#f4f4f4"⟩
    ⟨-(piv / 2), 0, 0⟩ ⟨0, -(1 / 2), 0⟩ ⟨1, 1, 1⟩ false true

/-- The mesh of the PlaneGLTF component: a 100 by 100 plane at y = -1,
receiving shadows. -/
def planeGLTFNode {α : Type} [LinearOrderedField α] (piv : α) : SceneNode α :=
  .mesh ⟨"planeBufferGeometry", [100, 100]⟩ ⟨"meshPhysicalMaterial", "#f4f4f4"⟩
    ⟨-(piv / 2), 0, 0⟩ ⟨0, -1, 0⟩ ⟨1, 1, 1⟩ false true

/-- The mesh of the Box component: a unit box casting shadows, whose
scale and material color are the animated spring values. -/
def boxNode {α : Type} [LinearOrderedField α] (scale : Vec3 α) (color : String) : SceneNode α :=
  .mesh ⟨"boxBufferGeometry", [1, 1, 1]⟩ ⟨"meshPhysicalMaterial", color⟩
    ⟨0, 0, 0⟩ ⟨0, 0, 0⟩ scale true false

/-- The spotlight of the App scene: positioned at [0, 5, 10], penumbra 1,
casting shadows. -/
def spotLightNode {α : Type} [LinearOrderedField α] : SceneNode α :=
  .spotLight ⟨0, 5, 10⟩ 1 true

/-- The children of the group in the App scene: the PlaneGLTF mesh,
followed by whatever ShibaGLTF renders (nothing while unresolved). -/
def groupChildren {α : Type} [LinearOrderedField α] (piv : α) (s : Option GLTFModel) :
    List (SceneNode α) :=
  planeGLTFNode piv :: (shibaRender s).toList

/-- The canvas children of the App scene, in source order: fog, ambient
light, spotlight, controls, and the group. -/
def appChildren {α : Type} [LinearOrderedField α] (piv : α) (s : Option GLTFModel) :
    List (SceneNode α) :=
  [ .fogNode "#666" 10 25
  , .ambientLight (1 / 2)
  , spotLightNode
  , .controlsNode true (piv / 3) (piv / 3)
  , .group (groupChildren piv s) ]

/-- The draw-order list of nodes of a scene: every root, with the group
expanded into itself followed by its children (the observed scene nests
exactly one level). -/
def sceneNodes {α : Type} (roots : List (SceneNode α)) : List (SceneNode α) :=
  roots.flatMap fun n =>
    match n with
    | .group cs => SceneNode.group cs :: cs
    | m => [m]

/-- Modelled from the spec: the shadow-map pass processes exactly the
nodes whose declared casting flag is set. -/
def shadowMapPass {α : Type} (roots : List (SceneNode α)) : List (SceneNode α) :=
  (sceneNodes roots).filter castsOf

/-- C2: while the model state is unresolved, ShibaGLTF contributes no
node to the scene graph; once resolved, it contributes exactly one
primitive node holding the resolved fragment unchanged. -/
theorem C2_pending_then_passthrough {α : Type} (s : Option GLTFModel) :
    (s = none → shibaRender (α := α) s = none) ∧
    (∀ m : GLTFModel, s = some m →
      shibaRender (α := α) s = some (SceneNode.primitive m.scene)) := by
  constructor
  · intro h
    rw [h]
    rfl
  · intro m h
    rw [h]
    rfl

/-- Witness for C2 at the pending state and at a concrete resolved
model. -/
theorem C2_pending_then_passthrough_witness :
    (shibaRender (α := ℚ) none = none) ∧
    (shibaRender (α := ℚ) (some ⟨Fragment.node []⟩)
      = some (SceneNode.primitive (Fragment.node []))) :=
  ⟨(C2_pending_then_passthrough none).1 rfl,
   (C2_pending_then_passthrough (some ⟨Fragment.node []⟩)).2 ⟨Fragment.node []⟩ rfl⟩

/-- Counterexample to C3 as stated: after a malformed-asset failure the
handle equals the initial pending state none; the state type of the
component has no failed variant, so no distinct failed state carrying an
error descriptor is ever entered. -/
theorem C3_no_failed_state_counterexample :
    handleStep none (LoadOutcome.failure "malformed asset content") = none := rfl

/-- C3 amended: a failure outcome leaves the handle unresolved (no
distinct failed state and no stored error descriptor, since the code
installs no error callback); the scene graph then renders nothing for
the subtree, and the rest of the scene, the PlaneGLTF mesh included, is
assembled unchanged. -/
theorem C3_failure_fallback {α : Type} [LinearOrderedField α] (piv : α) (e : String) :
    handleStep none (LoadOutcome.failure e) = none ∧
    shibaRender (α := α) (handleStep none (LoadOutcome.failure e)) = none ∧
    groupChildren piv (handleStep none (LoadOutcome.failure e)) = [planeGLTFNode piv] ∧
    appChildren piv (handleStep none (LoadOutcome.failure e))
      = appChildren piv none := by
  refine ⟨rfl, rfl, rfl, rfl⟩

/-- Witness for C3 amended at a concrete network failure. -/
theorem C3_failure_fallback_witness :
    handleStep none (LoadOutcome.failure "network error fetching the asset") = none ∧
    shibaRender (α := ℚ)
        (handleStep none (LoadOutcome.failure "network error fetching the asset")) = none ∧
    groupChildren (1 : ℚ)
        (handleStep none (LoadOutcome.failure "network error fetching the asset"))
      = [planeGLTFNode 1] ∧
    appChildren (1 : ℚ)
        (handleStep none (LoadOutcome.failure "network error fetching the asset"))
      = appChildren 1 none :=
  C3_failure_fallback 1 "network error fetching the asset"

/-- Counterexample to C5 as stated: a load whose only outcome is a
network failure leaves the handle equal to the pending state, so the
handle never transitions to any terminal state at all. -/
theorem C5_no_terminal_counterexample :
    handleRun [LoadOutcome.failure "network error"] = none ∧
    (handleRun [LoadOutcome.failure "network error"]).isSome = false := ⟨rfl, rfl⟩

theorem handleRun_failures (fs : List LoadOutcome) (hall : fs.all isFailureOutcome) :
    ∀ s : Option GLTFModel, fs.foldl handleStep s = s := by
  induction fs with
  | nil => intro s; rfl
  | cons e es ih =>
      intro s
      simp only [List.all_cons, Bool.and_eq_true] at hall
      cases e with
      | success m => simp [isFailureOutcome] at hall
      | failure err => exact ih hall.2 s

theorem handleRun_none_of_no_success (pre : List LoadOutcome)
    (h : (pre.filter isSuccessOutcome).length = 0) : handleRun pre = none := by
  have hall : pre.all isFailureOutcome = true := by
    rw [List.all_eq_true]
    intro e he
    cases e with
    | success m =>
        exfalso
        have : LoadOutcome.success m ∈ pre.filter isSuccessOutcome :=
          List.mem_filter.mpr ⟨he, rfl⟩
        rw [List.length_eq_zero] at h
        rw [h] at this
        exact List.not_mem_nil _ this
    | failure err => rfl
  exact handleRun_failures pre hall none

/-- C5 amended: the handle starts unresolved; it can change only on a
success outcome and only to resolved, so with at most one success
delivered per request it transitions at most once and, once resolved,
keeps the same resolved value for the rest of the run; a run of failures
alone never leaves the unresolved state. -/
theorem C5_resolves_at_most_once (es pre suf : List LoadOutcome) (m : GLTFModel)
    (hsplit : es = pre ++ suf)
    (hone : (es.filter isSuccessOutcome).length ≤ 1)
    (hres : handleRun pre = some m) :
    handleRun es = some m ∧ handleRun [] = none ∧
    (∀ fs : List LoadOutcome, fs.all isFailureOutcome → handleRun fs = none) := by
  refine ⟨?_, rfl, fun fs hall => handleRun_failures fs hall none⟩
  have hpre1 : 1 ≤ (pre.filter isSuccessOutcome).length := by
    by_contra hlt
    push_neg at hlt
    have h0 : (pre.filter isSuccessOutcome).length = 0 := by omega
    rw [handleRun_none_of_no_success pre h0] at hres
    exact Option.noConfusion hres
  have hsuf0 : (suf.filter isSuccessOutcome).length = 0 := by
    rw [hsplit, List.filter_append, List.length_append] at hone
    omega
  have hall : suf.all isFailureOutcome = true := by
    rw [List.all_eq_true]
    intro e he
    cases e with
    | success mm =>
        exfalso
        have : LoadOutcome.success mm ∈ suf.filter isSuccessOutcome :=
          List.mem_filter.mpr ⟨he, rfl⟩
        rw [List.length_eq_zero] at hsuf0
        rw [hsuf0] at this
        exact List.not_mem_nil _ this
    | failure err => rfl
  rw [hsplit]
  unfold handleRun
  rw [List.foldl_append]
  have := handleRun_failures suf hall (List.foldl handleStep none pre)
  rw [this]
  exact hres

/-- Witness for C5 amended at a run whose single outcome is a success. -/
theorem C5_resolves_at_most_once_witness :
    handleRun [LoadOutcome.success ⟨Fragment.node []⟩] = some ⟨Fragment.node []⟩ ∧
    handleRun [] = none ∧
    (∀ fs : List LoadOutcome, fs.all isFailureOutcome → handleRun fs = none) :=
  C5_resolves_at_most_once [LoadOutcome.success ⟨Fragment.node []⟩]
    [LoadOutcome.success ⟨Fragment.node []⟩] [] ⟨Fragment.node []⟩ rfl
    (le_refl 1) rfl

/-- C8: every node of any shadow-map pass has its declared casting flag
set, so a node with casts false never appears there; in the running App
scene the pass contains exactly the spotlight; the two planes declare
receiving and the box and spotlight declare casting, and those flags are
the ones the draw step reads. -/
theorem C8_shadow_flags {α : Type} [LinearOrderedField α] (piv : α) (s : Option GLTFModel)
    (sc : Vec3 α) (col : String) (roots : List (SceneNode α)) (n : SceneNode α)
    (hmem : n ∈ shadowMapPass roots) :
    castsOf n = true ∧
    shadowMapPass (appChildren piv s) = [spotLightNode] ∧
    receivesOf (planeNode piv) = true ∧
    receivesOf (planeGLTFNode piv) = true ∧
    castsOf (boxNode sc col) = true ∧
    castsOf (spotLightNode : SceneNode α) = true ∧
    castsOf (planeNode piv) = false ∧
    receivesOf (boxNode sc col) = false := by
  refine ⟨List.of_mem_filter hmem, ?_, rfl, rfl, rfl, rfl, rfl, rfl⟩
  cases s with
  | none =>
      simp [shadowMapPass, sceneNodes, appChildren, groupChildren, shibaRender,
        spotLightNode, planeGLTFNode, castsOf, List.filter]
  | some m =>
      simp [shadowMapPass, sceneNodes, appChildren, groupChildren, shibaRender,
        spotLightNode, planeGLTFNode, castsOf, List.filter]

/-- Witness for C8 at the spotlight alone in the scene. -/
theorem C8_shadow_flags_witness :
    castsOf (spotLightNode : SceneNode ℚ) = true ∧
    shadowMapPass (appChildren (1 : ℚ) none) = [spotLightNode] ∧
    receivesOf (planeNode (1 : ℚ)) = true ∧
    receivesOf (planeGLTFNode (1 : ℚ)) = true ∧
    castsOf (boxNode (⟨1, 1, 1⟩ : Vec3 ℚ) "gray") = true ∧
    castsOf (spotLightNode : SceneNode ℚ) = true ∧
    castsOf (planeNode (1 : ℚ)) = false ∧
    receivesOf (boxNode (⟨1, 1, 1⟩ : Vec3 ℚ) "gray") = false :=
  C8_shadow_flags 1 none ⟨1, 1, 1⟩ "gray" [spotLightNode] spotLightNode
    (by simp [shadowMapPass, sceneNodes, spotLightNode, castsOf, List.filter])

/-! ## Effect lifecycle (ShibaGLTF useEffect, src/src/App.js lines 227-229) -/

/-- Modelled from the spec: an effect with a dependency list runs after
the first render of an instance and again only when the dependency list
differs from the previous render. The argument gives the dependency list
at each render of the instance. -/
def effectRunsAt (deps : ℕ → List ℕ) : ℕ → Bool
  | 0 => true
  | n + 1 => decide (deps (n + 1) ≠ deps n)

/-- How many times the effect has run once renders 0 up to n have
happened. -/
def fetchCount (deps : ℕ → List ℕ) (n : ℕ) : ℕ :=
  ((List.range (n + 1)).filter (effectRunsAt deps)).length

/-- The dependency list ShibaGLTF passes to its load effect: empty at
every render. -/
def shibaDeps : ℕ → List ℕ := fun _ => []

theorem shiba_effect_only_first (n : ℕ) :
    (List.range (n + 1)).filter (effectRunsAt shibaDeps) = [0] := by
  induction n with
  | zero => rfl
  | succ m ih =>
      rw [List.range_succ, List.filter_append, ih]
      have h : effectRunsAt shibaDeps (m + 1) = false := by
        simp [effectRunsAt, shibaDeps]
      simp [h]

/-- C9: a mounted ShibaGLTF instance issues exactly one fetch no matter
how many re-renders happen, and a collection of instances issues exactly
one fetch each. -/
theorem C9_single_fetch (n : ℕ) (instances : List ℕ) :
    fetchCount shibaDeps n = 1 ∧
    (instances.map fun r => fetchCount shibaDeps r).sum = instances.length := by
  constructor
  · unfold fetchCount
    rw [shiba_effect_only_first]
    rfl
  · induction instances with
    | nil => rfl
    | cons r rs ih =>
        simp only [List.map_cons, List.sum_cons, List.length_cons, ih]
        unfold fetchCount
        rw [shiba_effect_only_first]
        simp [Nat.add_comm]

/-- Witness for C9 at five re-renders and three distinct instances. -/
theorem C9_single_fetch_witness :
    fetchCount shibaDeps 5 = 1 ∧
    (([0, 3, 7] : List ℕ).map fun r => fetchCount shibaDeps r).sum
      = ([0, 3, 7] : List ℕ).length :=
  C9_single_fetch 5 [0, 3, 7]

end Workshop
